import Mathlib

/-!
# Shallow embedding of the Dharmapala Shield simulation core

This file embeds the parts of the game's simulation core (src/js/config.js,
utils.js, enemy.js, defense.js, Projectile.js, saveSystem.js and the Game
class in audioManager.js) that the specification's claims are about, and
proves or refutes each claim.

Modelling conventions, used throughout:

* JavaScript numbers are modelled as exact rationals `ℚ`; `Math.floor` and
  `Math.ceil` are `Int.floor` / `Int.ceil`.
* A JavaScript `Map` keyed by effect names is an association list with unique
  keys; `Map.set` replaces the entry in place when the key is present and
  appends otherwise (`mapSet` below).
* Calls that read `Math.random()` or `Date.now()` take the drawn value or the
  clock reading as an explicit extra argument, so that the dependence of the
  result on those oracles is a provable statement.
* An object property that the source never defines (notably `radius` on
  enemies, which `Utils.circleCollision` and `Projectile.checkCollisions`
  read) is an `Option` that stays `none`; a JavaScript comparison against the
  resulting `NaN` is false, which is how the guards below treat `none`.
* Purely visual state (particles, trails, animation timers, the facing
  `angle`) and the UI/audio/achievement calls are omitted: they feed no value
  back into the simulation quantities the claims mention.
-/

set_option autoImplicit false

namespace DharmapalaShield

/-- `Math.sqrt`, restricted to the rational field of the embedding.  For a
non-negative `q = n / d` in lowest terms with `n * d = k ^ 2` this returns
`k / d`, which is exactly `Real.sqrt q`; every theorem below evaluates it
only at such perfect squares (distances between concrete points chosen to be
exact), so no approximation is ever observed. -/
def sqrtQ (q : ℚ) : ℚ := (Nat.sqrt (q.num.natAbs * q.den) : ℚ) / (q.den : ℚ)

/-- `Utils.distance` (src/js/utils.js). -/
def Utils.distance (x1 y1 x2 y2 : ℚ) : ℚ :=
  sqrtQ ((x2 - x1) ^ 2 + (y2 - y1) ^ 2)

/-- The three-currency triple (`game.resources`, and every cost and reward
object).  `Game.spendResources` never clamps, so balances live in `ℤ`. -/
structure Resources where
  dharma : ℤ
  bandwidth : ℤ
  anonymity : ℤ
  deriving DecidableEq, Repr

namespace Game

/-- `Game.addResources` (src/js/audioManager.js): componentwise credit over
`Object.entries(resources)`. -/
def addResources (r reward : Resources) : Resources :=
  ⟨r.dharma + reward.dharma, r.bandwidth + reward.bandwidth,
   r.anonymity + reward.anonymity⟩

/-- `Game.canAfford` (src/js/audioManager.js): false as soon as one balance is
strictly below the corresponding cost component. -/
def canAfford (r cost : Resources) : Bool :=
  !(decide (r.dharma < cost.dharma)) && !(decide (r.bandwidth < cost.bandwidth))
    && !(decide (r.anonymity < cost.anonymity))

/-- `Game.spendResources` (src/js/audioManager.js): componentwise debit, with
no affordability check and no clamping at zero. -/
def spendResources (r cost : Resources) : Resources :=
  ⟨r.dharma - cost.dharma, r.bandwidth - cost.bandwidth,
   r.anonymity - cost.anonymity⟩

end Game

/-- The status-effect / buff / debuff names that occur in the source, plus the
four projectile buff names `Projectile.applyBuff` switches on. -/
inductive EffectKind where
  | frozen | burning | poisoned | slowed | hasted | stealthed | scrambled
  | cloaked | boosted | corrupted | emp | reflection | encrypted
  | weakened | blinded | speed | damage | piercing | homing
  deriving DecidableEq, Repr

/-- A JavaScript `Map` from effect kinds to remaining durations.  The stored
objects also carry `type` (a copy of the key) and `startTime` (written once,
never read by the simulation), which are therefore not modelled. -/
abbrev EffectMap := List (EffectKind × ℚ)

/-- `Map.get`: value of the (unique) entry for `k`, if any. -/
def mapGet : EffectMap → EffectKind → Option ℚ
  | [], _ => none
  | (k', v') :: rest, k => if k' = k then some v' else mapGet rest k

/-- `Map.has`. -/
def mapHas (m : EffectMap) (k : EffectKind) : Bool := (mapGet m k).isSome

/-- `Map.set`: replace the entry for `k` in place when present, append
otherwise. -/
def mapSet : EffectMap → EffectKind → ℚ → EffectMap
  | [], k, v => [(k, v)]
  | (k', v') :: rest, k, v =>
      if k' = k then (k, v) :: rest else (k', v') :: mapSet rest k v

/-- The keys of an effect map. -/
def mapKeys (m : EffectMap) : List EffectKind := m.map Prod.fst

theorem mapGet_mapSet_self (m : EffectMap) (k : EffectKind) (v : ℚ) :
    mapGet (mapSet m k v) k = some v := by
  induction m with
  | nil => simp [mapSet, mapGet]
  | cons hd tl ih =>
      obtain ⟨k', v'⟩ := hd
      by_cases h : k' = k
      · simp [mapSet, mapGet, h]
      · simp [mapSet, mapGet, h, ih]

theorem mapKeys_mapSet (m : EffectMap) (k : EffectKind) (v : ℚ) :
    mapKeys (mapSet m k v) = mapKeys m ∨
      (k ∉ mapKeys m ∧ mapKeys (mapSet m k v) = mapKeys m ++ [k]) := by
  induction m with
  | nil => right; simp [mapSet, mapKeys]
  | cons hd tl ih =>
      obtain ⟨k', v'⟩ := hd
      by_cases h : k' = k
      · left; simp [mapSet, mapKeys, h]
      · rcases ih with ih | ⟨hmem, ih⟩
        · left
          simp only [mapSet, h, if_neg, mapKeys, List.map_cons, List.cons.injEq, true_and]
          simpa [mapKeys] using ih
        · right
          refine ⟨?_, ?_⟩
          · simp only [mapKeys, List.map_cons, List.mem_cons, not_or]
            exact ⟨fun hc => h hc.symm, hmem⟩
          · simp only [mapSet, h, if_neg, mapKeys, List.map_cons, List.cons_append,
              List.cons.injEq, true_and]
            simpa [mapKeys] using ih

theorem mapKeys_nodup_mapSet (m : EffectMap) (k : EffectKind) (v : ℚ)
    (hm : (mapKeys m).Nodup) : (mapKeys (mapSet m k v)).Nodup := by
  rcases mapKeys_mapSet m k v with hk | ⟨hmem, hk⟩
  · rw [hk]; exact hm
  · rw [hk]
    refine hm.append (List.nodup_singleton k) ?_
    intro a ha hb
    simp only [List.mem_singleton] at hb
    subst hb
    exact hmem ha

/-- A point of the level path (`{x, y}` objects in `Level.generatePath`). -/
structure Point where
  x : ℚ
  y : ℚ
  deriving DecidableEq, Repr

/-- The `type` strings of spawnable units: the six keys of
`CONFIG.ENEMY_TYPES` plus the two keys of `CONFIG.BOSS_TYPES`. -/
inductive UnitType where
  | scriptKiddie | federalAgent | corporateSaboteur
  | aiSurveillance | quantumHacker | corruptedMonk
  | raidTeam | megaCorpTitan
  deriving DecidableEq, Repr

/-- The simulation-relevant fields of a `CONFIG.ENEMY_TYPES` entry. -/
structure EnemyTypeConfig where
  health : ℚ
  speed : ℚ
  reward : Resources
  size : ℚ
  deriving DecidableEq, Repr

/-- `CONFIG.ENEMY_TYPES[t]` (src/js/config.js): `none` exactly on the two
boss-only type strings, which that table does not contain. -/
def ENEMY_TYPES : UnitType → Option EnemyTypeConfig
  | .scriptKiddie => some ⟨20, 80, ⟨5, 2, 1⟩, 15⟩
  | .federalAgent => some ⟨40, 60, ⟨10, 5, 3⟩, 18⟩
  | .corporateSaboteur => some ⟨35, 70, ⟨15, 8, 5⟩, 16⟩
  | .aiSurveillance => some ⟨60, 50, ⟨20, 12, 8⟩, 20⟩
  | .quantumHacker => some ⟨80, 90, ⟨30, 20, 15⟩, 22⟩
  | .corruptedMonk => some ⟨100, 40, ⟨50, 30, 25⟩, 25⟩
  | .raidTeam => none
  | .megaCorpTitan => none

/-- The simulation-relevant fields of a `CONFIG.BOSS_TYPES` entry. -/
structure BossTypeConfig where
  health : ℚ
  speed : ℚ
  reward : Resources
  size : ℚ
  phases : ℕ
  deriving DecidableEq, Repr

/-- `CONFIG.BOSS_TYPES[t]` (src/js/config.js). -/
def BOSS_TYPES : UnitType → Option BossTypeConfig
  | .raidTeam => some ⟨500, 30, ⟨100, 60, 40⟩, 40, 3⟩
  | .megaCorpTitan => some ⟨800, 20, ⟨200, 120, 80⟩, 50, 4⟩
  | _ => none

/-- The order of `Object.keys(CONFIG.ENEMY_TYPES)`, as declared in
src/js/config.js. -/
def enemyTypeKeys : List UnitType :=
  [.scriptKiddie, .federalAgent, .corporateSaboteur,
   .aiSurveillance, .quantumHacker, .corruptedMonk]

/-- The defense type strings (keys of `CONFIG.DEFENSE_TYPES`). -/
inductive DefenseType where
  | firewall | encryption | decoy | mirror | anonymity | distributor
  deriving DecidableEq, Repr

/-- The `special` tags of `CONFIG.DEFENSE_TYPES` entries. -/
inductive SpecialTag where
  | basic | encrypt | decoy | reflect | cloak | boost
  deriving DecidableEq, Repr

/-- The simulation-relevant fields of a `CONFIG.DEFENSE_TYPES` entry. -/
structure DefenseTypeConfig where
  cost : Resources
  damage : ℚ
  range : ℚ
  fireRate : ℚ
  projectileSpeed : ℚ
  special : SpecialTag
  deriving DecidableEq, Repr

/-- `CONFIG.DEFENSE_TYPES[t]` (src/js/config.js). -/
def DEFENSE_TYPES : DefenseType → DefenseTypeConfig
  | .firewall => ⟨⟨25, 0, 0⟩, 15, 200, 1000, 5, .basic⟩
  | .encryption => ⟨⟨50, 20, 10⟩, 25, 180, 1500, 4, .encrypt⟩
  | .decoy => ⟨⟨30, 15, 5⟩, 0, 150, 0, 0, .decoy⟩
  | .mirror => ⟨⟨75, 40, 20⟩, 40, 250, 2000, 8, .reflect⟩
  | .anonymity => ⟨⟨60, 30, 40⟩, 20, 300, 1200, 6, .cloak⟩
  | .distributor => ⟨⟨100, 60, 30⟩, 30, 350, 800, 7, .boost⟩

/-- `CONFIG.GRID_SIZE` in the desktop configuration (40; no claim depends on
the 30-unit mobile value). -/
def GRID_SIZE : ℚ := 40

/-- The damage-type strings accepted by `takeDamage` (keys of the
`resistance` record initialised in the `Enemy` constructor). -/
inductive DamageType where
  | fire | ice | electric | poison
  deriving DecidableEq, Repr

/-- The simulation-relevant fields of an `Enemy` (src/js/enemy.js
constructor).  `id` models JavaScript object identity (the source compares
enemies by reference, e.g. in `piercedTargets` and splash exclusion).
`radius` is a property the source never defines on enemies — it stays
`none` — yet `Utils.circleCollision` and `Projectile.checkCollisions` read
it.  Visual fields (trail, particles, animation, facing angle) and the
special-ability timers (written but never branched on for plain enemies) are
omitted. -/
structure Enemy where
  id : ℕ
  x : ℚ
  y : ℚ
  type : UnitType
  health : ℚ
  maxHealth : ℚ
  speed : ℚ
  baseSpeed : ℚ
  damage : ℤ
  reward : Resources
  pathIndex : ℕ
  progress : ℚ
  targetX : ℚ
  targetY : ℚ
  reachedEnd : Bool
  isDead : Bool
  resistFire : ℚ
  resistIce : ℚ
  resistElectric : ℚ
  resistPoison : ℚ
  statusEffects : EffectMap
  radius : Option ℚ
  deriving DecidableEq, Repr

/-- `this.resistance[damageType]` on an enemy. -/
def Enemy.resistanceOf (e : Enemy) : DamageType → ℚ
  | .fire => e.resistFire
  | .ice => e.resistIce
  | .electric => e.resistElectric
  | .poison => e.resistPoison

/-- `Enemy.updateTarget` (src/js/enemy.js): advance to the next waypoint, or
mark the end of the path as reached. -/
def Enemy.updateTarget (path : List Point) (e : Enemy) : Enemy :=
  if 0 < path.length then
    if e.pathIndex < path.length - 1 then
      let i := e.pathIndex + 1
      { e with pathIndex := i,
               targetX := (path.getD i ⟨0, 0⟩).x,
               targetY := (path.getD i ⟨0, 0⟩).y,
               progress := (i : ℚ) / ((path.length - 1 : ℕ) : ℚ) }
    else { e with reachedEnd := true }
  else e

/-- The `Enemy` constructor (src/js/enemy.js), which ends by calling
`updateTarget`.  `cfg` is the `CONFIG.ENEMY_TYPES[type]` entry the
constructor reads (the caller, `Level.spawnEnemy`, has already checked it
exists). -/
def mkEnemy (id : ℕ) (path : List Point) (x y : ℚ) (t : UnitType)
    (cfg : EnemyTypeConfig) : Enemy :=
  Enemy.updateTarget path
    { id := id, x := x, y := y, type := t,
      health := cfg.health, maxHealth := cfg.health,
      speed := cfg.speed, baseSpeed := cfg.speed,
      damage := 1, reward := cfg.reward,
      pathIndex := 0, progress := 0, targetX := x, targetY := y,
      reachedEnd := false, isDead := false,
      resistFire := 1, resistIce := 1, resistElectric := 1, resistPoison := 1,
      statusEffects := [], radius := none }

/-- `Enemy.die` (src/js/enemy.js): mark dead and clear all status effects. -/
def Enemy.die (e : Enemy) : Enemy :=
  { e with isDead := true, statusEffects := [] }

/-- `Enemy.takeDamage` (src/js/enemy.js).  `resistance[damageType] || 1`
falls back to 1 when the stored resistance is falsy (0). -/
def Enemy.takeDamage (e : Enemy) (amount : ℚ) (dtype : DamageType) : Enemy :=
  let r0 := e.resistanceOf dtype
  let resistance := if r0 = 0 then 1 else r0
  let actualDamage := amount * resistance
  let e1 := { e with health := e.health - actualDamage }
  if e1.health ≤ 0 then e1.die else e1

/-- `Enemy.applyStatusEffect` (src/js/enemy.js): a plain `Map.set` of the
requested duration — no comparison with the remaining duration. -/
def Enemy.applyStatusEffect (e : Enemy) (k : EffectKind) (duration : ℚ) :
    Enemy :=
  { e with statusEffects := mapSet e.statusEffects k duration }

/-- `Enemy.hasStatusEffect`. -/
def Enemy.hasStatusEffect (e : Enemy) (k : EffectKind) : Bool :=
  mapHas e.statusEffects k

/-- `Enemy.updateStatusEffects` (src/js/enemy.js): tick every remaining
duration down by `dt` and drop the expired entries. -/
def Enemy.updateStatusEffects (e : Enemy) (dt : ℚ) : Enemy :=
  let ticked := e.statusEffects.map (fun p => (p.1, p.2 - dt))
  { e with statusEffects := ticked.filter (fun p => decide (0 < p.2)) }

/-- `Enemy.checkEndReached` (src/js/enemy.js), with `game.lives` passed
explicitly: a reached-end enemy debits `this.damage` from the lives counter
and is marked `isDead` (which is what routes it through `onEnemyKilled` in
`Game.updateEnemies`). -/
def Enemy.checkEndReached (e : Enemy) (lives : ℤ) : Enemy × ℤ :=
  if e.reachedEnd = true then
    ({ e with isDead := true }, lives - e.damage)
  else (e, lives)

/-- `Enemy.updateNormalMovement` (src/js/enemy.js): advance towards the
current waypoint, or advance the waypoint index once within 2 units.  The
facing-angle assignment (visual) is omitted. -/
def Enemy.updateNormalMovement (path : List Point) (e : Enemy)
    (deltaTime speed : ℚ) : Enemy :=
  let dx := e.targetX - e.x
  let dy := e.targetY - e.y
  let distance := sqrtQ (dx ^ 2 + dy ^ 2)
  if 2 < distance then
    { e with x := e.x + dx / distance * speed * deltaTime * 0.001,
             y := e.y + dy / distance * speed * deltaTime * 0.001 }
  else
    Enemy.updateTarget path e

/-- `Enemy.updateStealthMovement` (src/js/enemy.js).  The source draws
`Math.random()` here; the drawn value is the explicit `rand` argument, so the
dependence of the tick on the unseeded system RNG is a provable fact. -/
def Enemy.updateStealthMovement (path : List Point) (e : Enemy)
    (deltaTime speed rand : ℚ) : Enemy :=
  let e1 :=
    if e.hasStatusEffect .stealthed = false ∧ rand < 0.01 then
      e.applyStatusEffect .stealthed 2000
    else e
  Enemy.updateNormalMovement path e1 deltaTime speed

/-- The simulation-relevant fields of a `Defense` (src/js/defense.js
constructor).  `target` models the enemy-object reference as the enemy's
identity; a reference to an enemy no longer in `game.enemies` behaves like a
dead target (removed enemies are spliced only when `isDead`). -/
structure Defense where
  x : ℚ
  y : ℚ
  type : DefenseType
  level : ℕ
  maxLevel : ℕ
  experience : ℚ
  experienceToNextLevel : ℚ
  damage : ℚ
  range : ℚ
  fireRate : ℚ
  lastFireTime : ℚ
  target : Option ℕ
  buffs : EffectMap
  debuffs : EffectMap
  isActive : Bool
  specialAbilityCooldown : ℚ
  specialAbilityActive : Bool
  specialAbilityDuration : ℚ
  gridX : ℤ
  gridY : ℤ
  centerX : ℚ
  centerY : ℚ
  deriving DecidableEq, Repr

/-- The `Defense` constructor (src/js/defense.js). -/
def mkDefense (x y : ℚ) (t : DefenseType) : Defense :=
  let cfg := DEFENSE_TYPES t
  { x := x, y := y, type := t,
    level := 1, maxLevel := 5, experience := 0, experienceToNextLevel := 100,
    damage := cfg.damage, range := cfg.range, fireRate := cfg.fireRate,
    lastFireTime := 0, target := none, buffs := [], debuffs := [],
    isActive := true,
    specialAbilityCooldown := 0, specialAbilityActive := false,
    specialAbilityDuration := 0,
    gridX := ⌊x / GRID_SIZE⌋, gridY := ⌊y / GRID_SIZE⌋,
    centerX := x + GRID_SIZE / 2, centerY := y + GRID_SIZE / 2 }

/-- `Defense.hasBuff`. -/
def Defense.hasBuff (d : Defense) (k : EffectKind) : Bool := mapHas d.buffs k

/-- `Defense.hasDebuff`. -/
def Defense.hasDebuff (d : Defense) (k : EffectKind) : Bool :=
  mapHas d.debuffs k

/-- `Defense.applyBuff` (src/js/defense.js): a plain `Map.set` of the
requested duration — no comparison with the remaining duration. -/
def Defense.applyBuff (d : Defense) (k : EffectKind) (duration : ℚ) :
    Defense :=
  { d with buffs := mapSet d.buffs k duration }

/-- `Defense.applyDebuff` (src/js/defense.js). -/
def Defense.applyDebuff (d : Defense) (k : EffectKind) (duration : ℚ) :
    Defense :=
  { d with debuffs := mapSet d.debuffs k duration }

/-- `Defense.canUpgrade`. -/
def Defense.canUpgrade (d : Defense) : Bool := decide (d.level < d.maxLevel)

/-- `Defense.addExperience`, while-loop body (src/js/defense.js).  The fuel
argument bounds the source's `while`; `addExperience` below passes enough
fuel for every state with `experienceToNextLevel ≥ 1`, which holds in all
reachable states (the threshold starts at 100 and only grows). -/
def Defense.addExperienceGo : ℕ → Defense → Defense
  | 0, d => d
  | fuel + 1, d =>
      if d.experienceToNextLevel ≤ d.experience ∧ d.canUpgrade = true then
        Defense.addExperienceGo fuel
          { d with experience := d.experience - d.experienceToNextLevel,
                   experienceToNextLevel :=
                     ((⌊d.experienceToNextLevel * 1.5⌋ : ℤ) : ℚ),
                   level := d.level + 1 }
      else d

/-- `Defense.addExperience` (src/js/defense.js). -/
def Defense.addExperience (d : Defense) (amount : ℚ) : Defense :=
  let d1 := { d with experience := d.experience + amount }
  Defense.addExperienceGo (⌊d1.experience⌋.toNat + 1) d1

/-- `Defense.upgrade` (src/js/defense.js): recompute damage, range and fire
rate from the base config and the new level, then add 50 experience (which
can itself advance the level once more, without recomputing stats). -/
def Defense.upgrade (d : Defense) : Defense :=
  if d.canUpgrade = true then
    let lvl := d.level + 1
    let cfg := DEFENSE_TYPES d.type
    let d1 := { d with
      level := lvl,
      damage := ((⌊cfg.damage * (1 + (lvl : ℚ) * 0.2)⌋ : ℤ) : ℚ),
      range := cfg.range * (1 + (lvl : ℚ) * 0.1),
      fireRate := max 200 (cfg.fireRate * (1 - (lvl : ℚ) * 0.1)) }
    Defense.addExperience d1 50
  else d

/-- `Defense.getDamage` (src/js/defense.js): the live `damage` field under
the `boosted` buff and `weakened` debuff multipliers, floored. -/
def Defense.getDamage (d : Defense) : ℤ :=
  let dmg := d.damage
  let dmg := if d.hasBuff .boosted = true then dmg * 1.5 else dmg
  let dmg := if d.hasDebuff .weakened = true then dmg * 0.7 else dmg
  ⌊dmg⌋

/-- `Defense.getRange` (src/js/defense.js). -/
def Defense.getRange (d : Defense) : ℚ :=
  let r := d.range
  let r := if d.hasBuff .boosted = true then r * 1.2 else r
  let r := if d.hasDebuff .blinded = true then r * 0.8 else r
  r

/-- `Defense.getFireRate` (src/js/defense.js). -/
def Defense.getFireRate (d : Defense) : ℚ :=
  let fr := d.fireRate
  let fr := if d.hasBuff .boosted = true then fr * 0.7 else fr
  let fr := if d.hasDebuff .slowed = true then fr * 1.3 else fr
  max 100 fr

/-- `Defense.getProjectileSpeed` (src/js/defense.js). -/
def Defense.getProjectileSpeed (d : Defense) : ℚ :=
  let s := (DEFENSE_TYPES d.type).projectileSpeed
  if d.hasBuff .boosted = true then s * 1.3 else s

/-- `Defense.findBestTarget` (src/js/defense.js, lines 534–564): scan
`game.enemies`, keep the best score among enemies within the raw `range`
field.  The score reads progress, health fraction, speed and distance — and
nothing else: in particular it never consults `statusEffects`, so a
`stealthed` enemy competes like any other.  `bestScore` starts at `-∞`,
modelled by the `Option` accumulator. -/
def Defense.findBestTarget (d : Defense) (enemies : List Enemy) :
    Option Enemy :=
  (enemies.foldl
    (fun best e =>
      let distance := Utils.distance d.centerX d.centerY e.x e.y
      if distance ≤ d.range then
        let score := e.progress * 100 + (1 - e.health / e.maxHealth) * 50 +
          e.speed * 0.5 + (d.range - distance) * 0.1
        match best with
        | none => some (e, score)
        | some (b, bestScore) =>
            if bestScore < score then some (e, score) else some (b, bestScore)
      else best)
    none).map Prod.fst

/-- `DefenseManager.findBestTarget` (src/js/saveSystem.js, lines 918–956):
same scan with the effective `getRange`, an extra `reward.dharma` term — and
again no `stealthed` check. -/
def DefenseManager.findBestTarget (d : Defense) (enemies : List Enemy) :
    Option Enemy :=
  let defenseX := d.x + GRID_SIZE / 2
  let defenseY := d.y + GRID_SIZE / 2
  let range := d.getRange
  (enemies.foldl
    (fun best e =>
      let distance := Utils.distance defenseX defenseY e.x e.y
      if distance ≤ range then
        let score := e.progress * 100 + (1 - e.health / e.maxHealth) * 50 +
          e.speed * 0.5 + (e.reward.dharma : ℚ) * 2 +
          (range - distance) * 0.1
        match best with
        | none => some (e, score)
        | some (b, bestScore) =>
            if bestScore < score then some (e, score) else some (b, bestScore)
      else best)
    none).map Prod.fst

/-- `Defense.isValidTarget` (src/js/defense.js), with the enemy list passed
explicitly to resolve the stored reference. -/
def Defense.isValidTarget (d : Defense) (enemies : List Enemy) (tid : ℕ) :
    Bool :=
  match enemies.find? (fun e => e.id == tid) with
  | none => false
  | some t =>
      !t.isDead &&
        decide (Utils.distance d.centerX d.centerY t.x t.y ≤ d.range)

/-- The simulation-relevant fields of a `Projectile` (src/js/Projectile.js
constructor).  `target` holds the target enemy's identity (the source stores
the object reference); `piercedTargets` is the `Set` of already-hit enemies,
by identity. -/
structure Projectile where
  x : ℚ
  y : ℚ
  target : Option ℕ
  damage : ℚ
  speed : ℚ
  type : DefenseType
  vx : ℚ
  vy : ℚ
  radius : ℚ
  isActive : Bool
  piercing : Bool
  homing : Bool
  splash : Bool
  splashRadius : ℚ
  piercedTargets : List ℕ
  deriving DecidableEq, Repr

/-- `Projectile.initializeSpecialProperties` (src/js/Projectile.js): the
kind-specific switch; `decoy` falls through with no case. -/
def Projectile.initializeSpecialProperties (p : Projectile) : Projectile :=
  match p.type with
  | .firewall => { p with radius := 4 }
  | .encryption => { p with speed := p.speed * 0.8, piercing := true, radius := 3 }
  | .mirror => { p with speed := p.speed * 1.2, radius := 5 }
  | .anonymity => { p with homing := true, radius := 3 }
  | .distributor => { p with splash := true, splashRadius := 50, radius := 6 }
  | .decoy => p

/-- `Projectile.updateVelocity` (src/js/Projectile.js).  A stored reference
to an enemy no longer in the store behaves like a dead target (the store only
splices enemies it has marked dead). -/
def Projectile.updateVelocity (p : Projectile) (enemies : List Enemy) :
    Projectile :=
  match p.target.bind (fun tid => enemies.find? (fun e => e.id == tid)) with
  | none => p
  | some t =>
      if t.isDead = true then p
      else
        let dx := t.x - p.x
        let dy := t.y - p.y
        let distance := sqrtQ (dx ^ 2 + dy ^ 2)
        if 0 < distance then
          { p with vx := dx / distance * p.speed, vy := dy / distance * p.speed }
        else p

/-- The `Projectile` constructor (src/js/Projectile.js): base fields, then
`initializeSpecialProperties`, then `updateVelocity`. -/
def mkProjectile (x y : ℚ) (target : Option ℕ) (damage speed : ℚ)
    (t : DefenseType) (enemies : List Enemy) : Projectile :=
  Projectile.updateVelocity
    (Projectile.initializeSpecialProperties
      { x := x, y := y, target := target, damage := damage, speed := speed,
        type := t, vx := 0, vy := 0, radius := 4, isActive := true,
        piercing := false, homing := false, splash := false,
        splashRadius := 0, piercedTargets := [] })
    enemies

/-- `Projectile.applyBuff` (src/js/Projectile.js): a switch over the four
recognised buff names; any other name (in particular `encrypted`) matches no
case, and the `duration` argument is never read at all. -/
def Projectile.applyBuff (p : Projectile) (buffType : EffectKind)
    (duration : ℚ) : Projectile :=
  match buffType with
  | .speed => { p with speed := p.speed * 1.5 }
  | .damage => { p with damage := p.damage * 1.5 }
  | .piercing => { p with piercing := true }
  | .homing => { p with homing := true }
  | _ => p

/-- `Defense.encryptAllProjectiles` (src/js/defense.js): the encryption
defense's special ability applies the `encrypted` buff to every live
projectile. -/
def Defense.encryptAllProjectiles (projectiles : List Projectile) :
    List Projectile :=
  projectiles.map (fun p => p.applyBuff .encrypted 3000)

/-- `Projectile.findNewTarget` (src/js/Projectile.js): homing projectiles
retarget to the nearest alive enemy (possibly none); others keep their
target reference. -/
def Projectile.findNewTarget (p : Projectile) (enemies : List Enemy) :
    Projectile :=
  if p.homing = false then p
  else
    let nearest := enemies.foldl
      (fun best e =>
        if e.isDead = true then best
        else
          let distance := Utils.distance p.x p.y e.x e.y
          match best with
          | none => some (e, distance)
          | some (b, bd) =>
              if distance < bd then some (e, distance) else some (b, bd))
      none
    { p with target := nearest.map (fun q => q.1.id) }

/-- The enemies hit by splash damage (src/js/Projectile.js,
`applySplashDamage`): every enemy other than the target within
`splashRadius` of the projectile. -/
def Projectile.splashVictims (p : Projectile) (enemies : List Enemy) :
    List ℕ :=
  (enemies.filter (fun e =>
    !(p.target == some e.id) &&
      decide (Utils.distance p.x p.y e.x e.y ≤ p.splashRadius))).map Enemy.id

/-- `Projectile.applySplashDamage` (src/js/Projectile.js): 50 % damage to
each splash victim. -/
def Projectile.applySplashDamage (p : Projectile) (enemies : List Enemy) :
    List Enemy :=
  enemies.map (fun e =>
    if !(p.target == some e.id) &&
        decide (Utils.distance p.x p.y e.x e.y ≤ p.splashRadius) then
      e.takeDamage (p.damage * 0.5) .fire
    else e)

/-- `Projectile.boostNearbyDefenses` (src/js/Projectile.js): defenses within
100 units of the impact get `boosted` for 1000 ms. -/
def Projectile.boostNearbyDefenses (p : Projectile)
    (defenses : List Defense) : List Defense :=
  defenses.map (fun o =>
    if Utils.distance p.x p.y o.centerX o.centerY ≤ 100 then
      o.applyBuff .boosted 1000
    else o)

/-- `Projectile.applySpecialEffects` (src/js/Projectile.js): the on-hit
status application per projectile kind (mirror's branch only spawns a visual
reflection with 10 % probability, touching no simulation state). -/
def Projectile.applySpecialEffects (p : Projectile) (enemies : List Enemy)
    (defenses : List Defense) : List Enemy × List Defense :=
  match p.type with
  | .encryption =>
      (match p.target with
       | none => enemies
       | some tid => enemies.map (fun e =>
           if e.id == tid then e.applyStatusEffect .scrambled 1000 else e),
       defenses)
  | .anonymity =>
      (match p.target with
       | none => enemies
       | some tid => enemies.map (fun e =>
           if e.id == tid then e.applyStatusEffect .stealthed 500 else e),
       defenses)
  | .distributor => (enemies, p.boostNearbyDefenses defenses)
  | _ => (enemies, defenses)

/-- `Projectile.hit` (src/js/Projectile.js, lines 412–443).  Returns the
updated projectile, world and defenses, together with the list of damage
events `(enemy identity, amount)` this call applied (the direct hit first,
then any splash).  The early returns: no target, dead target, or — for a
piercing projectile — a target already in `piercedTargets`. -/
def Projectile.hit (p : Projectile) (enemies : List Enemy)
    (defenses : List Defense) :
    Projectile × List Enemy × List Defense × List (ℕ × ℚ) :=
  match p.target with
  | none => (p, enemies, defenses, [])
  | some tid =>
    match enemies.find? (fun e => e.id == tid) with
    | none => (p, enemies, defenses, [])
    | some t =>
      if t.isDead = true then (p, enemies, defenses, [])
      else if p.piercing = true ∧ tid ∈ p.piercedTargets then
        (p, enemies, defenses, [])
      else
        let enemies1 := enemies.map (fun e =>
          if e.id == tid then e.takeDamage p.damage .fire else e)
        let p1 :=
          if p.piercing = true then
            { p with piercedTargets := tid :: p.piercedTargets }
          else p
        let withSplash :=
          if p1.splash = true then
            (p1.applySplashDamage enemies1,
             (p1.splashVictims enemies1).map (fun i => (i, p1.damage * 0.5)))
          else (enemies1, ([] : List (ℕ × ℚ)))
        let stepped := p1.applySpecialEffects withSplash.1 defenses
        let p2 := if p1.piercing = false then { p1 with isActive := false } else p1
        (p2, stepped.1, stepped.2, (tid, p.damage) :: withSplash.2)

/-- `Projectile.checkCollisions` (src/js/Projectile.js).  The collision test
reads `this.target.radius`, a property the source never defines on enemies:
the JavaScript comparison against the resulting `NaN` is false, which is the
`none` branch on the target's radius. -/
def Projectile.checkCollisions (p : Projectile) (enemies : List Enemy)
    (defenses : List Defense) :
    Projectile × List Enemy × List Defense × List (ℕ × ℚ) :=
  match p.target.bind (fun tid => enemies.find? (fun e => e.id == tid)) with
  | none => (p.findNewTarget enemies, enemies, defenses, [])
  | some t =>
    if t.isDead = true then (p.findNewTarget enemies, enemies, defenses, [])
    else
      match t.radius with
      | none => (p, enemies, defenses, [])
      | some r =>
          if Utils.distance p.x p.y t.x t.y ≤ r + p.radius then
            p.hit enemies defenses
          else (p, enemies, defenses, [])

/-- `Utils.circleCollision` (src/js/utils.js): `distance < r1 + r2`.  A
missing radius makes the sum `NaN` in JavaScript, and a comparison against
`NaN` is false. -/
def Utils.circleCollision (x1 y1 : ℚ) (r1 : Option ℚ) (x2 y2 : ℚ)
    (r2 : Option ℚ) : Bool :=
  match r1, r2 with
  | some a, some b => decide (Utils.distance x1 y1 x2 y2 < a + b)
  | _, _ => false

/-- `Game.checkProjectileCollisions` (src/js/audioManager.js, lines
1187–1206): the first enemy colliding with the projectile takes the
projectile's damage directly (with no pierced-set check), then
`projectile.hit()` runs, then the loop breaks.  The collision test passes
the enemy's never-defined `radius`. -/
def Game.checkProjectileCollisions (p : Projectile) (enemies : List Enemy)
    (defenses : List Defense) :
    Projectile × List Enemy × List Defense × List (ℕ × ℚ) :=
  match enemies.find? (fun e =>
      Utils.circleCollision p.x p.y (some p.radius) e.x e.y e.radius) with
  | none => (p, enemies, defenses, [])
  | some e =>
      let enemies1 := enemies.map (fun o =>
        if o.id == e.id then o.takeDamage p.damage .fire else o)
      let stepped := p.hit enemies1 defenses
      (stepped.1, stepped.2.1, stepped.2.2.1, (e.id, p.damage) :: stepped.2.2.2)

/-- `Defense.fire` (src/js/defense.js): create one projectile at the defense
center aimed at the current target, with the effective damage and projectile
speed.  The muzzle flash, the shoot sound and the kind-specific
`applyFireEffects` call are separate effects (see `Defense.applyFireEffects`
below); for the `firewall` kind — the one the theorems fire — that call does
nothing. -/
def Defense.fire (d : Defense) (enemies : List Enemy)
    (projectiles : List Projectile) : List Projectile :=
  match d.target with
  | none => projectiles
  | some tid =>
      projectiles ++
        [mkProjectile d.centerX d.centerY (some tid) ((d.getDamage : ℤ) : ℚ)
          d.getProjectileSpeed d.type enemies]

/-- `Defense.scrambleNearbyEnemies` (src/js/defense.js): the body calls
`enemy.applyDebuff`, a method the `Enemy` class does not define, so reaching
an enemy within `range / 2` throws a `TypeError`; `none` models that
exception. -/
def Defense.scrambleNearbyEnemies (d : Defense) (enemies : List Enemy) :
    Option (List Enemy) :=
  if enemies.any (fun e =>
      decide (Utils.distance d.centerX d.centerY e.x e.y ≤ d.range * 0.5)) then
    none
  else some enemies

/-- `Defense.cloakNearbyDefenses` (src/js/defense.js): other defenses within
`range · 0.7` get `cloaked` for 3000 ms.  `self` is this defense's identity
(the source compares object references). -/
def Defense.cloakNearbyDefenses (d : Defense) (defenses : List Defense)
    (self : ℕ) (ids : List ℕ) : List Defense :=
  (defenses.zip ids).map (fun q =>
    if q.2 == self then q.1
    else if Utils.distance d.centerX d.centerY q.1.centerX q.1.centerY ≤
        d.range * 0.7 then
      q.1.applyBuff .cloaked 3000
    else q.1)

/-- `Defense.updateFiring` (src/js/defense.js, lines 305–319).  The source
reads `Date.now()` here; the reading is the explicit `currentTime` argument,
so the dependence of firing on the wall clock is a provable fact.  Decoys
never fire. -/
def Defense.updateFiring (d : Defense) (enemies : List Enemy)
    (projectiles : List Projectile) (currentTime : ℚ) :
    Defense × List Projectile :=
  if (DEFENSE_TYPES d.type).special = .decoy then (d, projectiles)
  else
    let fireRate := d.getFireRate
    match d.target with
    | none => (d, projectiles)
    | some tid =>
        if d.isValidTarget enemies tid = true ∧
            fireRate ≤ currentTime - d.lastFireTime then
          ({ d with lastFireTime := currentTime },
           Defense.fire d enemies projectiles)
        else (d, projectiles)

/-- The extra fields of a `Boss` (src/js/enemy.js, `Boss extends Enemy`),
held next to the inherited enemy record. -/
structure Boss where
  enemy : Enemy
  phases : ℕ
  currentPhase : ℤ
  phaseHealthThreshold : ℚ
  size : ℚ
  shieldActive : Bool
  shieldHealth : ℚ
  maxShieldHealth : ℚ
  specialAbilityCooldown : ℚ
  minionSpawnTimer : ℚ
  empBlastTimer : ℚ
  shieldRegenTimer : ℚ
  deriving DecidableEq, Repr

/-- `Boss.initializeBossBehavior` (src/js/enemy.js). -/
def Boss.initializeBossBehavior (b : Boss) : Boss :=
  match b.enemy.type with
  | .raidTeam =>
      { b with specialAbilityCooldown := 5000, minionSpawnTimer := 3000,
               empBlastTimer := 8000 }
  | .megaCorpTitan =>
      { b with specialAbilityCooldown := 4000, shieldRegenTimer := 6000,
               shieldActive := true, shieldHealth := b.maxShieldHealth }
  | _ => b

/-- The `Boss` constructor (src/js/enemy.js).  The `super` call reads
`CONFIG.ENEMY_TYPES[type]`, which contains no boss key; `cfgE` is whatever
that (in the source, undefined) lookup would have to supply — every field it
feeds is immediately overwritten from the boss config, and `Level.spawnEnemy`
never reaches a `Boss` construction anyway (see `spawnEnemy_boss_none`
inside the C1 theorem). -/
def mkBoss (id : ℕ) (path : List Point) (x y : ℚ) (t : UnitType)
    (cfgE : EnemyTypeConfig) (cfgB : BossTypeConfig) : Boss :=
  let e0 := mkEnemy id path x y t cfgE
  let e1 := { e0 with
    health := cfgB.health, maxHealth := cfgB.health,
    speed := cfgB.speed, baseSpeed := cfgB.speed,
    damage := 5, reward := cfgB.reward }
  Boss.initializeBossBehavior
    { enemy := e1, phases := cfgB.phases, currentPhase := 1,
      phaseHealthThreshold := cfgB.health / (cfgB.phases : ℚ),
      size := cfgB.size, shieldActive := false, shieldHealth := 0,
      maxShieldHealth := 100, specialAbilityCooldown := 0,
      minionSpawnTimer := 0, empBlastTimer := 0, shieldRegenTimer := 0 }

/-- `Boss.onPhaseChange` (src/js/enemy.js): speed × 1.2, life-loss damage
× 1.3 floored, special-ability cooldown reset (UI/audio/particles omitted). -/
def Boss.onPhaseChange (b : Boss) : Boss :=
  { b with
    enemy := { b.enemy with
      speed := b.enemy.speed * 1.2,
      damage := ⌊(b.enemy.damage : ℚ) * 1.3⌋ },
    specialAbilityCooldown := 0 }

/-- `Boss.updatePhases` (src/js/enemy.js, lines 1103–1110):
`newPhase = ceil((1 − health / maxHealth) · phases)`, applied only when it
exceeds the current phase. -/
def Boss.updatePhases (b : Boss) : Boss :=
  let newPhase : ℤ := ⌈(1 - b.enemy.health / b.enemy.maxHealth) * (b.phases : ℚ)⌉
  if b.currentPhase < newPhase then
    Boss.onPhaseChange { b with currentPhase := newPhase }
  else b

/-- `Boss.takeDamage` (src/js/enemy.js, lines 1303–1327): an active,
positive shield absorbs `min(amount, shieldHealth)` first (deactivating at
zero), and only the remainder reaches `super.takeDamage`. -/
def Boss.takeDamage (b : Boss) (amount : ℚ) (dtype : DamageType) : Boss :=
  let stepped :=
    if b.shieldActive = true ∧ 0 < b.shieldHealth then
      let shieldDamage := min amount b.shieldHealth
      let b1 := { b with shieldHealth := b.shieldHealth - shieldDamage }
      let b2 :=
        if b1.shieldHealth ≤ 0 then
          { b1 with shieldActive := false, shieldHealth := 0 }
        else b1
      (b2, amount - shieldDamage)
    else (b, amount)
  if 0 < stepped.2 then
    { stepped.1 with enemy := stepped.1.enemy.takeDamage stepped.2 dtype }
  else stepped.1

/-- One damage application to a live boss followed by its next
`updatePhases` (the first step of `Boss.update` on the following tick; a
dead boss's update returns before `updatePhases`). -/
def Boss.damageStep (b : Boss) (d : ℚ) : Boss :=
  if b.enemy.isDead = true then b
  else Boss.updatePhases (Boss.takeDamage b d .fire)

/-- A sequence of damage applications, each followed by the phase update. -/
def Boss.damageRun (b : Boss) (ds : List ℚ) : Boss :=
  ds.foldl Boss.damageStep b

/-- The slice of the `Game` object (src/js/audioManager.js) that the
economy/lives claims read and write. -/
structure GameSlice where
  resources : Resources
  lives : ℤ
  score : ℤ
  deriving DecidableEq, Repr

/-- `Game.onEnemyKilled` (src/js/audioManager.js, lines 1208–1223): credit
the reward, add `enemy.scoreValue || 10` (enemies define no `scoreValue`, so
10) to the score.  Particles, sound and the achievement check are external
effects. -/
def Game.onEnemyKilled (g : GameSlice) (e : Enemy) : GameSlice :=
  { g with resources := Game.addResources g.resources e.reward,
           score := g.score + 10 }

/-- `Game.onEnemyReachedEnd` (src/js/audioManager.js, lines 1225–1239):
deduct one life (sound/UI/game-over check omitted).  Unreachable in the
shipped loop: `checkEndReached` has already marked the enemy dead, so
`updateEnemies` takes the `isDead` branch first. -/
def Game.onEnemyReachedEnd (g : GameSlice) (e : Enemy) : GameSlice :=
  { g with lives := g.lives - 1 }

/-- The removal branch of the `Game.updateEnemies` loop body
(src/js/audioManager.js, lines 1095–1113), run on each enemy after its
`update(deltaTime)` call: a dead enemy goes through `onEnemyKilled` and is
spliced; only otherwise is `reachedEnd` consulted. -/
def Game.processUpdatedEnemy (g : GameSlice) (e : Enemy) :
    GameSlice × Option Enemy :=
  if e.isDead = true then (Game.onEnemyKilled g e, none)
  else if e.reachedEnd = true then (Game.onEnemyReachedEnd g e, none)
  else (g, some e)

/-- The end-of-life path of one enemy within a tick: the tail of
`Enemy.update` (`checkEndReached`, the only part of `update` that touches
the lives/resources ledger) followed by the removal branch of
`Game.updateEnemies`.  For an enemy whose `reachedEnd` flag is already set,
`updateMovement` returns immediately, so no other part of `update` is
relevant to the ledger. -/
def Game.enemyEndOfLife (g : GameSlice) (e : Enemy) :
    GameSlice × Option Enemy :=
  let stepped := e.checkEndReached g.lives
  Game.processUpdatedEnemy { g with lives := stepped.2 } stepped.1

/-- An enemy group of a wave configuration
(src/js/utils.js, `Level.generateWaveConfigs`).  The boss-wave swarm group
omits the `health` field; `spawnEnemy`'s default parameter then makes the
multiplier 1, which is how the omission is modelled. -/
structure EnemyGroup where
  type : UnitType
  count : ℕ
  delay : ℚ
  healthMult : ℚ
  deriving DecidableEq, Repr

/-- One wave's configuration. -/
structure WaveConfig where
  wave : ℕ
  enemies : List EnemyGroup
  delayBetweenWaves : ℚ
  bossWave : Bool
  deriving DecidableEq, Repr

/-- `Level.maxWaves`. -/
def maxWaves : ℕ := 20

/-- The body of the `Level.generateWaveConfigs` loop (src/js/utils.js, lines
1067–1122) for wave `i`.  The non-boss branch draws `Math.random()` once per
enemy type index `j`; `rng j` is that draw.  The boss branch draws
nothing. -/
def Level.generateWaveConfig (i : ℕ) (rng : ℕ → ℚ) : WaveConfig :=
  if i % 5 = 0 then
    { wave := i, delayBetweenWaves := 5000, bossWave := true,
      enemies :=
        [⟨if i ≤ 10 then .raidTeam else .megaCorpTitan, 1, 2000,
            1 + ((i : ℚ) - 5) * 0.2⟩,
         ⟨.scriptKiddie, 5 + i, 500, 1⟩] }
  else
    let difficulty : ℚ := (i : ℚ) / 10
    let baseCount : ℤ := ⌊(3 : ℚ) + (i : ℚ) * 0.5⌋
    let variance : ℤ := ⌊(i : ℚ) * 0.3⌋
    { wave := i, delayBetweenWaves := 5000, bossWave := false,
      enemies := (List.range enemyTypeKeys.length).filterMap (fun (j : ℕ) =>
        if (j : ℤ) ≤ ⌊difficulty * (enemyTypeKeys.length : ℚ)⌋ then
          some ⟨enemyTypeKeys.getD j .scriptKiddie,
                (max 1 (baseCount + ⌊rng j * (variance : ℚ)⌋)).toNat,
                1000, 1 + difficulty * 0.5⟩
        else none) }

/-- `Level.generateWaveConfigs` (src/js/utils.js): the 20 wave
configurations; `rng i j` is the `Math.random()` draw for wave `i`, type
index `j`. -/
def Level.generateWaveConfigs (rng : ℕ → ℕ → ℚ) : List WaveConfig :=
  (List.range maxWaves).map (fun k => Level.generateWaveConfig (k + 1) (rng (k + 1)))

/-- A unit produced by `Level.spawnEnemy`. -/
inductive Spawned where
  | enemy (e : Enemy)
  | boss (b : Boss)
  deriving DecidableEq, Repr

/-- `Level.spawnEnemy` (src/js/utils.js, lines 1240–1267).  The existence
guard reads `CONFIG.ENEMY_TYPES[enemyType]` only; since that table contains
no boss key, a boss-typed request takes the error path
(`console.error; return`, the `none` here) and the boss branch below is
reachable only for a type present in both tables — that is, never. -/
def Level.spawnEnemy (path : List Point) (id : ℕ) (t : UnitType)
    (healthMultiplier : ℚ) : Option Spawned :=
  match ENEMY_TYPES t with
  | none => none
  | some enemyConfig =>
    let p0 : Point := path.headD ⟨0, 0⟩
    match BOSS_TYPES t with
    | some bossConfig =>
        let b := mkBoss id path p0.x p0.y t enemyConfig bossConfig
        some (.boss { b with enemy := { b.enemy with
          health := bossConfig.health * healthMultiplier,
          maxHealth := bossConfig.health * healthMultiplier } })
    | none =>
        let e := mkEnemy id path p0.x p0.y t enemyConfig
        some (.enemy { e with
          health := enemyConfig.health * healthMultiplier,
          maxHealth := enemyConfig.health * healthMultiplier })

/-- The total number of boss-typed units a wave configuration asks the
spawner for. -/
def WaveConfig.bossCount (c : WaveConfig) : ℕ :=
  (c.enemies.map (fun g => if (BOSS_TYPES g.type).isSome then g.count else 0)).sum

/-- The operations the game loop can perform on one projectile between and
including its hit calls: retargeting (`findNewTarget`, or the constructor)
and a `hit()` invocation.  Quantifying over all such sequences covers every
way the collision logic could ever call `hit` during the projectile's
lifetime. -/
inductive ProjOp where
  | retarget (t : Option ℕ)
  | hitCall
  deriving DecidableEq, Repr

/-- Run a sequence of `ProjOp`s, accumulating every damage event. -/
def runOps (p : Projectile) (enemies : List Enemy) (defenses : List Defense) :
    List ProjOp → Projectile × List Enemy × List Defense × List (ℕ × ℚ)
  | [] => (p, enemies, defenses, [])
  | .retarget t :: ops => runOps { p with target := t } enemies defenses ops
  | .hitCall :: ops =>
      let stepped := p.hit enemies defenses
      let rest := runOps stepped.1 stepped.2.1 stepped.2.2.1 ops
      (rest.1, rest.2.1, rest.2.2.1, stepped.2.2.2 ++ rest.2.2.2)

/-! ## Concrete fixtures used by witnesses and counterexamples -/

/-- A three-waypoint straight path (one segment per grid cell, as
`generatePath` produces along a horizontal run). -/
def demoPath : List Point := [⟨0, 300⟩, ⟨40, 300⟩, ⟨80, 300⟩]

/-- A freshly spawned `corporateSaboteur` at the path start. -/
def demoSaboteur : Enemy :=
  mkEnemy 1 demoPath 0 300 .corporateSaboteur
    ((ENEMY_TYPES .corporateSaboteur).getD ⟨0, 0, ⟨0, 0, 0⟩, 0⟩)

/-- A freshly spawned `scriptKiddie` placed at (60, 60). -/
def demoTargetEnemy : Enemy :=
  mkEnemy 7 demoPath 60 60 .scriptKiddie
    ((ENEMY_TYPES .scriptKiddie).getD ⟨0, 0, ⟨0, 0, 0⟩, 0⟩)

/-- A firewall defense on cell (1, 1) — world position (40, 40), center
(60, 60) — with `demoTargetEnemy` bound as its target. -/
def demoFirewall : Defense :=
  { mkDefense 40 40 .firewall with target := some 7 }

/-- A projectile as the encryption defense fires it. -/
def demoProjectile : Projectile :=
  mkProjectile 60 60 (some 7) 25 4 .encryption [demoTargetEnemy]

/-- A stand-in for the undefined `CONFIG.ENEMY_TYPES[bossType]` lookup the
`Boss` constructor's `super` call performs: every field it feeds is
overwritten from the boss config before any read. -/
def undefinedEnemyConfig : EnemyTypeConfig := ⟨0, 0, ⟨0, 0, 0⟩, 0⟩

/-- The `raidTeam` boss a wave-5 configuration describes (health multiplier
`1 + (5 − 5) · 0.2 = 1`, so hp 500), placed at the path's first point. -/
def raidBoss5 : Boss :=
  mkBoss 0 demoPath 0 300 .raidTeam undefinedEnemyConfig
    ((BOSS_TYPES .raidTeam).getD ⟨0, 0, ⟨0, 0, 0⟩, 0, 1⟩)

/-- A `megaCorpTitan` boss at full shield (100) and full health (800). -/
def megaTitanDemo : Boss :=
  mkBoss 0 demoPath 0 300 .megaCorpTitan undefinedEnemyConfig
    ((BOSS_TYPES .megaCorpTitan).getD ⟨0, 0, ⟨0, 0, 0⟩, 0, 1⟩)

/-! ## Claims -/

/-- C10: `Game.spendResources` unconditionally subtracts each cost component
with no clamping at zero; under `canAfford = true` every balance stays
non-negative; without that precondition a balance can go negative. -/
theorem spendResources_safety (r cost : Resources) :
    Game.spendResources r cost =
      ⟨r.dharma - cost.dharma, r.bandwidth - cost.bandwidth,
       r.anonymity - cost.anonymity⟩ ∧
    (Game.canAfford r cost = true →
      0 ≤ (Game.spendResources r cost).dharma ∧
      0 ≤ (Game.spendResources r cost).bandwidth ∧
      0 ≤ (Game.spendResources r cost).anonymity) ∧
    (Game.spendResources ⟨0, 0, 0⟩ ⟨5, 0, 0⟩).dharma < 0 := by
  refine ⟨rfl, ?_, by decide⟩
  intro h
  simp only [Game.canAfford, Bool.and_eq_true, Bool.not_eq_true',
    decide_eq_false_iff_not, not_lt] at h
  obtain ⟨⟨h1, h2⟩, h3⟩ := h
  simp only [Game.spendResources]
  omega

/-- Witness for C10 at the initial resources and the firewall cost. -/
theorem spendResources_safety_witness :
    Game.canAfford ⟨100, 50, 75⟩ ⟨25, 0, 0⟩ = true ∧
      0 ≤ (Game.spendResources ⟨100, 50, 75⟩ ⟨25, 0, 0⟩).dharma ∧
      0 ≤ (Game.spendResources ⟨100, 50, 75⟩ ⟨25, 0, 0⟩).bandwidth ∧
      0 ≤ (Game.spendResources ⟨100, 50, 75⟩ ⟨25, 0, 0⟩).anonymity :=
  ⟨by decide, (spendResources_safety ⟨100, 50, 75⟩ ⟨25, 0, 0⟩).2.1 (by decide)⟩

/-- C9: `Projectile.applyBuff` with any buff kind outside
{speed, damage, piercing, homing} leaves the projectile unchanged; in
particular the `encrypted` buff the encryption special ability applies to
every live projectile has no effect. -/
theorem projectile_applyBuff_frame :
    (∀ (p : Projectile) (k : EffectKind) (dur : ℚ),
      k ≠ .speed → k ≠ .damage → k ≠ .piercing → k ≠ .homing →
        p.applyBuff k dur = p) ∧
    ∀ ps : List Projectile, Defense.encryptAllProjectiles ps = ps := by
  constructor
  · intro p k dur h1 h2 h3 h4
    cases k <;> simp_all [Projectile.applyBuff]
  · intro ps
    simp [Defense.encryptAllProjectiles, Projectile.applyBuff]

/-- Witness for C9 on a concrete fired projectile. -/
theorem projectile_applyBuff_frame_witness :
    demoProjectile.applyBuff .encrypted 3000 = demoProjectile ∧
      Defense.encryptAllProjectiles [demoProjectile] = [demoProjectile] :=
  ⟨projectile_applyBuff_frame.1 demoProjectile .encrypted 3000
      (by decide) (by decide) (by decide) (by decide),
    projectile_applyBuff_frame.2 [demoProjectile]⟩

/-- C8: `Boss.takeDamage` depletes an active positive shield first — the
shield drops by `min(d, s)`, deactivating at zero — and only the remainder
`max(0, d − s)` reaches the health (at resistance 1). -/
theorem boss_shield_absorbs_first (b : Boss) (d : ℚ)
    (hactive : b.shieldActive = true) (hs : 0 < b.shieldHealth)
    (hr : b.enemy.resistFire = 1) (hd : 0 ≤ d) :
    (b.takeDamage d .fire).shieldHealth =
        b.shieldHealth - min d b.shieldHealth ∧
      (b.takeDamage d .fire).enemy.health =
        b.enemy.health - max 0 (d - b.shieldHealth) ∧
      (b.takeDamage d .fire).shieldActive = decide (d < b.shieldHealth) := by
  have hcond : b.shieldActive = true ∧ 0 < b.shieldHealth := ⟨hactive, hs⟩
  rcases le_or_lt b.shieldHealth d with hcase | hcase
  · -- the shield is fully depleted
    have hmin : min d b.shieldHealth = b.shieldHealth := min_eq_right hcase
    have hmax : max 0 (d - b.shieldHealth) = d - b.shieldHealth := by
      apply max_eq_right; linarith
    have h0 : b.shieldHealth - min d b.shieldHealth ≤ 0 := by
      simp only [hmin]; linarith
    rcases eq_or_lt_of_le hcase with heq | hlt
    · -- the hit exactly matches the shield: no health damage
      have h1 : ¬ (0 < d - min d b.shieldHealth) := by
        simp only [hmin, ← heq]; simp
      simp only [Boss.takeDamage, if_pos hcond, if_pos h0, if_neg h1]
      refine ⟨by simp only [hmin, sub_self], ?_, by simp [← heq]⟩
      simp only [hmax, ← heq]
      simp
    · -- part of the hit passes through to health
      have h1 : 0 < d - min d b.shieldHealth := by simp only [hmin]; linarith
      simp only [Boss.takeDamage, if_pos hcond, if_pos h0, if_pos h1]
      refine ⟨by simp only [hmin, sub_self], ?_, by simp [not_lt_of_le hcase]⟩
      simp only [hmax, hmin]
      simp only [Enemy.takeDamage, Enemy.resistanceOf, hr]
      norm_num
      split <;> simp [Enemy.die]
  · -- the shield survives
    have hmin : min d b.shieldHealth = d := min_eq_left (le_of_lt hcase)
    have hmax : max 0 (d - b.shieldHealth) = 0 := by
      apply max_eq_left; linarith
    have h0 : ¬ (b.shieldHealth - min d b.shieldHealth ≤ 0) := by
      simp only [hmin]; push_neg; linarith
    have h1 : ¬ (0 < d - min d b.shieldHealth) := by simp only [hmin]; simp
    simp only [Boss.takeDamage, if_pos hcond, if_neg h0, if_neg h1]
    exact ⟨by simp only [hmin], by simp only [hmax]; simp,
      by simp [hcase, hactive]⟩

/-- Witness for C8: a full-shield (100) `megaCorpTitan` taking a single
120-damage hit — shield to 0 and deactivated, health down by exactly 20. -/
theorem boss_shield_absorbs_first_witness :
    (megaTitanDemo.takeDamage 120 .fire).shieldHealth =
        megaTitanDemo.shieldHealth - min 120 megaTitanDemo.shieldHealth ∧
      (megaTitanDemo.takeDamage 120 .fire).enemy.health =
        megaTitanDemo.enemy.health - max 0 (120 - megaTitanDemo.shieldHealth) ∧
      (megaTitanDemo.takeDamage 120 .fire).shieldActive =
        decide ((120 : ℚ) < megaTitanDemo.shieldHealth) :=
  boss_shield_absorbs_first megaTitanDemo 120 (by decide) (by decide)
    (by decide) (by decide)

/-- C7 counterexample: re-applying an already-active effect overwrites the
remaining duration with the new one — here shortening 2000 ms to 100 ms —
whereas the claim requires `max(existing, new)`. -/
theorem statusEffect_refresh_counterexample :
    mapGet ((demoSaboteur.applyStatusEffect .stealthed 2000).applyStatusEffect
        .stealthed 100).statusEffects .stealthed = some 100 ∧
      ¬ ((100 : ℚ) = max 2000 100) := by
  exact ⟨by decide, by decide⟩

/-- C7 (amended): re-application replaces the remaining duration with the
newly requested one (which can shorten it), and the map keeps at most one
instance per kind; the same holds for defense buffs. -/
theorem statusEffect_reapply_replaces (e : Enemy) (d0 : Defense)
    (k : EffectKind) (v : ℚ)
    (he : (mapKeys e.statusEffects).Nodup) (hd : (mapKeys d0.buffs).Nodup) :
    mapGet (e.applyStatusEffect k v).statusEffects k = some v ∧
      (mapKeys (e.applyStatusEffect k v).statusEffects).Nodup ∧
      mapGet (d0.applyBuff k v).buffs k = some v ∧
      (mapKeys (d0.applyBuff k v).buffs).Nodup := by
  refine ⟨?_, ?_, ?_, ?_⟩
  · simpa [Enemy.applyStatusEffect] using mapGet_mapSet_self e.statusEffects k v
  · simpa [Enemy.applyStatusEffect] using
      mapKeys_nodup_mapSet e.statusEffects k v he
  · simpa [Defense.applyBuff] using mapGet_mapSet_self d0.buffs k v
  · simpa [Defense.applyBuff] using mapKeys_nodup_mapSet d0.buffs k v hd

/-- Witness for the amended C7 on fresh actors. -/
theorem statusEffect_reapply_replaces_witness :
    mapGet (demoSaboteur.applyStatusEffect .stealthed 100).statusEffects
        .stealthed = some 100 ∧
      (mapKeys (demoSaboteur.applyStatusEffect .stealthed
        100).statusEffects).Nodup ∧
      mapGet (demoFirewall.applyBuff .stealthed 100).buffs .stealthed =
        some 100 ∧
      (mapKeys (demoFirewall.applyBuff .stealthed 100).buffs).Nodup :=
  statusEffect_reapply_replaces demoSaboteur demoFirewall .stealthed 100
    (by decide) (by decide)

/-- `Defense.addExperienceGo` never touches the stored damage. -/
theorem addExperienceGo_damage (n : ℕ) :
    ∀ d : Defense, (Defense.addExperienceGo n d).damage = d.damage := by
  induction n with
  | zero => intro d; rfl
  | succ n ih =>
      intro d
      unfold Defense.addExperienceGo
      split
      · rw [ih]
      · rfl

/-- C5 counterexample: a freshly built level-1 encryption defense delivers
`floor(25) = 25` damage, not the claimed `floor(25 · (1 + 0.2 · 1)) = 30` —
the constructor stores the base damage with no level factor. -/
theorem defense_damage_counterexample :
    (mkDefense 40 40 .encryption).level = 1 ∧
      (mkDefense 40 40 .encryption).getDamage = 25 ∧
      ¬ ((25 : ℤ) = ⌊(25 : ℚ) * (1 + 0.2 * 1)⌋) := by
  refine ⟨rfl, ?_, by norm_num⟩
  norm_num [mkDefense, Defense.getDamage, Defense.hasBuff, Defense.hasDebuff,
    mapHas, mapGet, DEFENSE_TYPES]

/-- C5 (amended): the delivered damage is
`floor(stored · (boosted ? 1.5 : 1) · (weakened ? 0.7 : 1))`, where the
stored damage is the base damage at construction (level 1, no level factor)
and `floor(base · (1 + 0.2 · L))` after an explicit upgrade to level
`L = level + 1`. -/
theorem defense_damage_formula :
    (∀ (x y : ℚ) (t : DefenseType),
        (mkDefense x y t).level = 1 ∧
          (mkDefense x y t).damage = (DEFENSE_TYPES t).damage) ∧
      (∀ d : Defense, d.getDamage =
        ⌊d.damage * (if d.hasBuff .boosted = true then 1.5 else 1) *
          (if d.hasDebuff .weakened = true then 0.7 else 1)⌋) ∧
      ∀ d : Defense, d.canUpgrade = true →
        d.upgrade.damage =
          ((⌊(DEFENSE_TYPES d.type).damage *
            (1 + ((d.level + 1 : ℕ) : ℚ) * 0.2)⌋ : ℤ) : ℚ) := by
  refine ⟨fun x y t => ⟨rfl, rfl⟩, ?_, ?_⟩
  · intro d
    unfold Defense.getDamage
    by_cases h1 : d.hasBuff .boosted = true <;>
      by_cases h2 : d.hasDebuff .weakened = true <;>
        simp [h1, h2, mul_one]
  · intro d h
    simp only [Defense.upgrade, if_pos h, Defense.addExperience,
      addExperienceGo_damage]

/-- Witness for the amended C5 on a fresh encryption defense (whose upgrade
stores `floor(25 · 1.4) = 35`). -/
theorem defense_damage_formula_witness :
    ((mkDefense 40 40 .encryption).level = 1 ∧
        (mkDefense 40 40 .encryption).damage =
          (DEFENSE_TYPES .encryption).damage) ∧
      (mkDefense 40 40 .encryption).getDamage =
        ⌊(mkDefense 40 40 .encryption).damage *
          (if (mkDefense 40 40 .encryption).hasBuff .boosted = true
            then 1.5 else 1) *
          (if (mkDefense 40 40 .encryption).hasDebuff .weakened = true
            then 0.7 else 1)⌋ ∧
      (mkDefense 40 40 .encryption).upgrade.damage =
        ((⌊(DEFENSE_TYPES (mkDefense 40 40 .encryption).type).damage *
          (1 + (((mkDefense 40 40 .encryption).level + 1 : ℕ) : ℚ) *
            0.2)⌋ : ℤ) : ℚ) :=
  ⟨defense_damage_formula.1 40 40 .encryption,
   defense_damage_formula.2.1 (mkDefense 40 40 .encryption),
   defense_damage_formula.2.2 (mkDefense 40 40 .encryption) (by decide)⟩

/-- C4: a `stealthed` enemy within range is selected by both targeting
routines — neither `Defense.findBestTarget` nor
`DefenseManager.findBestTarget` consults the status-effect table, so the
spec's "defenses MUST NOT acquire it as a target" is not implemented. -/
theorem findBestTarget_targets_stealthed (d : Defense) (e : Enemy)
    (hst : e.hasStatusEffect .stealthed = true)
    (h1 : Utils.distance d.centerX d.centerY e.x e.y ≤ d.range)
    (h2 : Utils.distance (d.x + GRID_SIZE / 2) (d.y + GRID_SIZE / 2)
      e.x e.y ≤ d.getRange) :
    Defense.findBestTarget d [e] = some e ∧
      DefenseManager.findBestTarget d [e] = some e := by
  constructor
  · simp [Defense.findBestTarget, h1]
  · simp [DefenseManager.findBestTarget, h2]

/-- A stealthed enemy sitting exactly at the demo firewall's center. -/
def demoStealthed : Enemy := demoTargetEnemy.applyStatusEffect .stealthed 2000

/-- Witness for C4: the firewall acquires the stealthed enemy. -/
theorem findBestTarget_targets_stealthed_witness :
    Defense.findBestTarget (mkDefense 40 40 .firewall) [demoStealthed] =
        some demoStealthed ∧
      DefenseManager.findBestTarget (mkDefense 40 40 .firewall)
        [demoStealthed] = some demoStealthed :=
  findBestTarget_targets_stealthed (mkDefense 40 40 .firewall) demoStealthed
    (by decide)
    (by norm_num [demoStealthed, demoTargetEnemy, mkEnemy, Enemy.updateTarget,
      Enemy.applyStatusEffect, demoPath, mkDefense, GRID_SIZE, Utils.distance,
      sqrtQ, DEFENSE_TYPES, List.getD, ENEMY_TYPES])
    (by norm_num [demoStealthed, demoTargetEnemy, mkEnemy, Enemy.updateTarget,
      Enemy.applyStatusEffect, demoPath, mkDefense, GRID_SIZE, Utils.distance,
      sqrtQ, DEFENSE_TYPES, List.getD, ENEMY_TYPES, Defense.getRange,
      Defense.hasBuff, Defense.hasDebuff, mapHas, mapGet])

/-- C6: the end-of-life bookkeeping for a reached-end enemy — exactly one
life debit of `e.damage`, but, contrary to the claim, the reward IS
credited: `checkEndReached` marks the enemy `isDead`, so the
`Game.updateEnemies` loop routes it through `onEnemyKilled` (the
no-reward handler `onEnemyReachedEnd` is unreachable). -/
theorem reachedEnd_credits_reward (g : GameSlice) (e : Enemy)
    (h1 : e.reachedEnd = true) :
    Game.enemyEndOfLife g e =
      (⟨Game.addResources g.resources e.reward, g.lives - e.damage,
        g.score + 10⟩, none) := by
  simp [Game.enemyEndOfLife, Enemy.checkEndReached, h1,
    Game.processUpdatedEnemy, Game.onEnemyKilled]

/-- A saboteur that has walked the whole demo path: the second
`updateTarget` call finds no further waypoint and sets `reachedEnd`. -/
def demoReachedEnd : Enemy :=
  Enemy.updateTarget demoPath (Enemy.updateTarget demoPath demoSaboteur)

/-- Witness for C6: from the initial ledger, the reached-end saboteur costs
one life and still credits its (15, 8, 5) reward. -/
theorem reachedEnd_credits_reward_witness :
    Game.enemyEndOfLife ⟨⟨100, 50, 75⟩, 20, 0⟩ demoReachedEnd =
      (⟨Game.addResources ⟨100, 50, 75⟩ demoReachedEnd.reward,
        20 - demoReachedEnd.damage, 0 + 10⟩, none) :=
  reachedEnd_credits_reward ⟨⟨100, 50, 75⟩, 20, 0⟩ demoReachedEnd (by decide)

/-- C2: tick-execution code reads the unseeded system RNG and the wall
clock, so two runs with identical seed, dt sequence and external inputs can
diverge.  Concretely: `updateStealthMovement` applies `stealthed` or not
depending on the `Math.random()` draw; `updateFiring` fires or not depending
on the `Date.now()` reading; `generateWaveConfigs` sizes its groups from
`Math.random()` draws. -/
theorem tick_reads_system_rng_and_clock :
    (Enemy.updateStealthMovement demoPath demoSaboteur 16 70
        (1/200)).statusEffects ≠
      (Enemy.updateStealthMovement demoPath demoSaboteur 16 70
        (1/2)).statusEffects ∧
    (Defense.updateFiring demoFirewall [demoTargetEnemy] [] 2000).1.lastFireTime ≠
      (Defense.updateFiring demoFirewall [demoTargetEnemy] [] 0).1.lastFireTime ∧
    (Defense.updateFiring demoFirewall [demoTargetEnemy] [] 2000).2.length ≠
      (Defense.updateFiring demoFirewall [demoTargetEnemy] [] 0).2.length ∧
    (Level.generateWaveConfig 7 (fun _ => 0)).enemies.map EnemyGroup.count ≠
      (Level.generateWaveConfig 7 (fun _ => (3 : ℚ)/5)).enemies.map
        EnemyGroup.count := by
  have hroll : (Enemy.updateStealthMovement demoPath demoSaboteur 16 70
      (1/200)).statusEffects = [(.stealthed, 2000)] := by
    norm_num [Enemy.updateStealthMovement, Enemy.hasStatusEffect, mapHas,
      mapGet, Enemy.applyStatusEffect, mapSet, Enemy.updateNormalMovement,
      Utils.distance, sqrtQ, demoSaboteur, mkEnemy, Enemy.updateTarget,
      demoPath, ENEMY_TYPES, List.getD]
  have hnoroll : (Enemy.updateStealthMovement demoPath demoSaboteur 16 70
      (1/2)).statusEffects = [] := by
    norm_num [Enemy.updateStealthMovement, Enemy.hasStatusEffect, mapHas,
      mapGet, Enemy.applyStatusEffect, mapSet, Enemy.updateNormalMovement,
      Utils.distance, sqrtQ, demoSaboteur, mkEnemy, Enemy.updateTarget,
      demoPath, ENEMY_TYPES, List.getD]
  have hfire : Defense.updateFiring demoFirewall [demoTargetEnemy] [] 2000 =
      ({ demoFirewall with lastFireTime := 2000 },
        Defense.fire demoFirewall [demoTargetEnemy] []) := by
    rw [Defense.updateFiring]
    norm_num [demoFirewall, mkDefense, DEFENSE_TYPES, Defense.getFireRate,
      Defense.hasBuff, Defense.hasDebuff, mapHas, mapGet,
      Defense.isValidTarget, List.find?, demoTargetEnemy, mkEnemy,
      Enemy.updateTarget, demoPath, List.getD, ENEMY_TYPES, Utils.distance,
      sqrtQ, GRID_SIZE]
    decide
  have hnofire : Defense.updateFiring demoFirewall [demoTargetEnemy] [] 0 =
      (demoFirewall, []) := by
    rw [Defense.updateFiring]
    norm_num [demoFirewall, mkDefense, DEFENSE_TYPES, Defense.getFireRate,
      Defense.hasBuff, Defense.hasDebuff, mapHas, mapGet,
      Defense.isValidTarget, List.find?, demoTargetEnemy, mkEnemy,
      Enemy.updateTarget, demoPath, List.getD, ENEMY_TYPES, Utils.distance,
      sqrtQ, GRID_SIZE]
  have hw0 : (Level.generateWaveConfig 7 (fun _ => 0)).enemies.map
      EnemyGroup.count = [6, 6, 6, 6, 6] := by
    norm_num [Level.generateWaveConfig, enemyTypeKeys, List.range_succ,
      List.getD]
    decide
  have hw1 : (Level.generateWaveConfig 7 (fun _ => (3 : ℚ)/5)).enemies.map
      EnemyGroup.count = [7, 7, 7, 7, 7] := by
    norm_num [Level.generateWaveConfig, enemyTypeKeys, List.range_succ,
      List.getD]
    decide
  refine ⟨?_, ?_, ?_, ?_⟩
  · rw [hroll, hnoroll]; simp
  · rw [hfire, hnofire]
    norm_num [demoFirewall, mkDefense]
  · rw [hfire, hnofire]
    simp [Defense.fire, demoFirewall]
  · rw [hw0, hw1]; simp

/-- `if a < b then b else a` is `max a b` (the shape `updatePhases` leaves
the phase in). -/
theorem ite_lt_eq_max (a b : ℤ) : (if a < b then b else a) = max a b := by
  rcases le_or_lt b a with h | h
  · rw [if_neg (not_lt.mpr h), max_eq_left h]
  · rw [if_pos h, max_eq_right h.le]

/-- `Enemy.takeDamage` on a surviving enemy at resistance 1 just lowers the
health. -/
theorem takeDamage_alive (e : Enemy) (d : ℚ) (hr : e.resistFire = 1)
    (halive : 0 < e.health - d) :
    e.takeDamage d .fire = { e with health := e.health - d } := by
  have h1 : ¬ (e.health - d * 1 ≤ 0) := by rw [mul_one]; push_neg; linarith
  have h2 : ¬ (e.health ≤ d) := by push_neg; linarith
  simp [Enemy.takeDamage, Enemy.resistanceOf, hr, h1, h2]

/-- Field accounting for `Boss.updatePhases`: the phase becomes the maximum
of the old phase and `ceil((1 − health/maxHealth) · phases)`, and the
health/config fields are untouched. -/
theorem updatePhases_spec (b : Boss) :
    (b.updatePhases).currentPhase =
        max b.currentPhase
          ⌈(1 - b.enemy.health / b.enemy.maxHealth) * (b.phases : ℚ)⌉ ∧
      (b.updatePhases).enemy.health = b.enemy.health ∧
      (b.updatePhases).enemy.maxHealth = b.enemy.maxHealth ∧
      (b.updatePhases).phases = b.phases ∧
      (b.updatePhases).shieldActive = b.shieldActive ∧
      (b.updatePhases).enemy.resistFire = b.enemy.resistFire ∧
      (b.updatePhases).enemy.isDead = b.enemy.isDead := by
  by_cases h : b.currentPhase <
      ⌈(1 - b.enemy.health / b.enemy.maxHealth) * (b.phases : ℚ)⌉
  · simp [Boss.updatePhases, h, Boss.onPhaseChange, max_eq_right h.le]
  · simp [Boss.updatePhases, h, max_eq_left (not_lt.mp h)]

/-- Field accounting for one `damageStep` on a live, shieldless boss that
survives the hit. -/
theorem damageStep_spec (b : Boss) (d : ℚ)
    (hdead : b.enemy.isDead = false) (hsh : b.shieldActive = false)
    (hr : b.enemy.resistFire = 1) (hd0 : 0 ≤ d)
    (halive : 0 < b.enemy.health - d) :
    (Boss.damageStep b d).enemy.health = b.enemy.health - d ∧
      (Boss.damageStep b d).enemy.maxHealth = b.enemy.maxHealth ∧
      (Boss.damageStep b d).phases = b.phases ∧
      (Boss.damageStep b d).shieldActive = false ∧
      (Boss.damageStep b d).enemy.resistFire = 1 ∧
      (Boss.damageStep b d).enemy.isDead = false ∧
      (Boss.damageStep b d).currentPhase =
        max b.currentPhase
          ⌈(1 - (b.enemy.health - d) / b.enemy.maxHealth) *
            (b.phases : ℚ)⌉ := by
  have hcond : ¬ (b.shieldActive = true ∧ 0 < b.shieldHealth) := by
    simp [hsh]
  have hstep : Boss.damageStep b d =
      Boss.updatePhases (Boss.takeDamage b d .fire) := by
    simp [Boss.damageStep, hdead]
  rcases eq_or_lt_of_le hd0 with hzero | hpos
  · -- a zero-damage application leaves the boss untouched before the
    -- phase update
    have ht : Boss.takeDamage b d .fire = b := by
      simp [Boss.takeDamage, hcond, ← hzero]
    obtain ⟨u1, u2, u3, u4, u5, u6, u7⟩ := updatePhases_spec b
    rw [hstep, ht]
    rw [← hzero]
    exact ⟨by rw [u2]; ring, u3, u4, by rw [u5, hsh], by rw [u6, hr],
      by rw [u7, hdead], by rw [u1, sub_zero]⟩
  · have ht : Boss.takeDamage b d .fire =
        { b with enemy := b.enemy.takeDamage d .fire } := by
      simp [Boss.takeDamage, hcond, hpos]
    rw [hstep, ht, takeDamage_alive b.enemy d hr halive]
    obtain ⟨u1, u2, u3, u4, u5, u6, u7⟩ :=
      updatePhases_spec { b with enemy := { b.enemy with health := b.enemy.health - d } }
    exact ⟨by rw [u2], by rw [u3], u4, by rw [u5, hsh], by rw [u6, hr],
      by rw [u7, hdead], by rw [u1]⟩

/-- The algebraic core of the phase thresholds. -/
theorem one_sub_div_mul_three (X : ℚ) :
    (1 - (500 - X) / 500) * 3 = 3 * X / 500 := by
  field_simp
  ring

/-- Running any sequence of non-negative, non-lethal damage applications on
a wave-5 `raidTeam`-shaped boss leaves the phase at
`max 1 ⌈3 · (cumulative damage) / 500⌉`: the phase is a monotone function of
cumulative damage alone, so each transition fires exactly once, at the
damage thresholds `500/3` and `1000/3`. -/
theorem damageRun_phase_invariant (ds : List ℚ) :
    ∀ (b : Boss) (D : ℚ),
      (∀ x ∈ ds, 0 ≤ x) → 0 ≤ D → D + ds.sum < 500 →
      b.enemy.health = 500 - D → b.enemy.maxHealth = 500 →
      b.phases = 3 → b.shieldActive = false →
      b.enemy.resistFire = 1 → b.enemy.isDead = false →
      b.currentPhase = max 1 ⌈3 * D / 500⌉ →
      (b.damageRun ds).currentPhase = max 1 ⌈3 * (D + ds.sum) / 500⌉ := by
  induction ds with
  | nil =>
      intro b D hnn hD hsum hh hmax hph hsh hr hdead hphase
      simpa [Boss.damageRun] using hphase
  | cons d ds ih =>
      intro b D hnn hD hsum hh hmax hph hsh hr hdead hphase
      have hd0 : 0 ≤ d := hnn d (List.mem_cons_self d ds)
      have hnn' : ∀ x ∈ ds, 0 ≤ x := fun x hx =>
        hnn x (List.mem_cons_of_mem d hx)
      have hsum_nn : 0 ≤ ds.sum := List.sum_nonneg hnn'
      have hsum_cons : (d :: ds).sum = d + ds.sum := List.sum_cons
      rw [hsum_cons] at hsum
      have halive : 0 < b.enemy.health - d := by rw [hh]; linarith
      obtain ⟨f1, f2, f3, f4, f5, f6, f7⟩ :=
        damageStep_spec b d hdead hsh hr hd0 halive
      have hrun : Boss.damageRun b (d :: ds) =
          Boss.damageRun (Boss.damageStep b d) ds := by
        simp [Boss.damageRun]
      have hceil : ⌈(1 - (b.enemy.health - d) / b.enemy.maxHealth) *
          (b.phases : ℚ)⌉ = ⌈3 * (D + d) / 500⌉ := by
        rw [hh, hmax, hph]
        congr 1
        have : (500 : ℚ) - D - d = 500 - (D + d) := by ring
        rw [this]
        exact one_sub_div_mul_three (D + d)
      have hmono : ⌈3 * D / 500⌉ ≤ ⌈3 * (D + d) / 500⌉ :=
        Int.ceil_le_ceil (by linarith)
      have hphase' : (Boss.damageStep b d).currentPhase =
          max 1 ⌈3 * (D + d) / 500⌉ := by
        rw [f7, hceil, hphase]
        omega
      have hfinal := ih (Boss.damageStep b d) (D + d) hnn'
        (by linarith) (by linarith)
        (by rw [f1, hh]; ring) (by rw [f2, hmax]) (by rw [f3, hph])
        f4 f5 f6 hphase'
      rw [hrun, hfinal, hsum_cons]
      congr 2
      ring

/-- C1 (amended): every 5th wave's configuration requests exactly one boss
group (`raidTeam` for waves ≤ 10, `megaCorpTitan` after, health multiplier
`1 + (n − 5) · 0.2`, hence hp 500 at wave 5) plus a scriptKiddie swarm of
`5 + n` — but `Level.spawnEnemy` spawns nothing for either boss type (its
existence guard consults `ENEMY_TYPES` only), so starting the wave spawns
zero bosses; and on a wave-5 `raidTeam`-shaped boss the phase equals
`max 1 ⌈3·D/500⌉` as a function of cumulative damage `D`, i.e. it rises
from 1 to 2 exactly once, when `D` first exceeds `500/3` (≈ 166.7, not
125), and from 2 to 3 exactly once, when `D` first exceeds `1000/3`
(≈ 333.3, not 250). -/
theorem bossWave_spawn_and_phase :
    (∀ (n : ℕ) (rng : ℕ → ℚ), n % 5 = 0 →
      (Level.generateWaveConfig n rng).bossWave = true ∧
      (Level.generateWaveConfig n rng).enemies =
        [⟨if n ≤ 10 then .raidTeam else .megaCorpTitan, 1, 2000,
            1 + ((n : ℚ) - 5) * 0.2⟩,
         ⟨.scriptKiddie, 5 + n, 500, 1⟩] ∧
      (Level.generateWaveConfig n rng).bossCount = 1) ∧
    (∀ (path : List Point) (id : ℕ) (mult : ℚ),
      Level.spawnEnemy path id .raidTeam mult = none ∧
      Level.spawnEnemy path id .megaCorpTitan mult = none) ∧
    (raidBoss5.enemy.health = 500 ∧ raidBoss5.enemy.maxHealth = 500 ∧
      raidBoss5.currentPhase = 1 ∧ raidBoss5.phases = 3 ∧
      raidBoss5.enemy.x = 0 ∧ raidBoss5.enemy.y = 300) ∧
    ∀ ds : List ℚ, (∀ x ∈ ds, 0 ≤ x) → ds.sum < 500 →
      (raidBoss5.damageRun ds).currentPhase = max 1 ⌈3 * ds.sum / 500⌉ ∧
      ((raidBoss5.damageRun ds).currentPhase = 2 ↔
        500 / 3 < ds.sum ∧ ds.sum ≤ 1000 / 3) ∧
      ((raidBoss5.damageRun ds).currentPhase = 3 ↔ 1000 / 3 < ds.sum) := by
  refine ⟨?_, ?_, ?_, ?_⟩
  · intro n rng h5
    unfold Level.generateWaveConfig
    rw [if_pos h5]
    refine ⟨rfl, rfl, ?_⟩
    unfold WaveConfig.bossCount
    by_cases h10 : n ≤ 10 <;> simp [h10, BOSS_TYPES]
  · intro path id mult
    exact ⟨rfl, rfl⟩
  · exact ⟨by decide, by decide, by decide, by decide, by decide, by decide⟩
  · intro ds hnn hsum
    have hmain := damageRun_phase_invariant ds raidBoss5 0 hnn le_rfl
      (by simpa using hsum)
      (by rw [show raidBoss5.enemy.health = (500 : ℚ) from by decide]; norm_num)
      (by decide) (by decide) (by decide) (by decide) (by decide)
      (by rw [show raidBoss5.currentPhase = 1 from by decide]; norm_num)
    rw [zero_add] at hmain
    refine ⟨hmain, ?_, ?_⟩
    · rw [hmain]
      constructor
      · intro h
        have h2 : ⌈3 * ds.sum / 500⌉ = 2 := by omega
        rw [Int.ceil_eq_iff] at h2
        obtain ⟨ha, hb⟩ := h2
        push_cast at ha hb
        constructor <;> linarith
      · rintro ⟨ha, hb⟩
        have h2 : ⌈3 * ds.sum / 500⌉ = 2 := by
          rw [Int.ceil_eq_iff]
          push_cast
          constructor <;> linarith
        omega
    · rw [hmain]
      constructor
      · intro h
        have h2 : ⌈3 * ds.sum / 500⌉ = 3 := by omega
        rw [Int.ceil_eq_iff] at h2
        obtain ⟨ha, hb⟩ := h2
        push_cast at ha
        linarith
      · intro ha
        have h2 : ⌈3 * ds.sum / 500⌉ = 3 := by
          rw [Int.ceil_eq_iff]
          push_cast
          constructor <;> linarith
        omega

/-- C1 counterexample: starting wave 5 spawns no `raidTeam` at all
(`spawnEnemy` rejects boss types); and even on the boss the configuration
describes, 125 cumulative damage leaves the phase at 1 (the claim says it
becomes 2) and 250 leaves it at 2 (the claim says 3). -/
theorem bossWave_counterexample :
    Level.spawnEnemy demoPath 0 .raidTeam (1 + ((5 : ℚ) - 5) * 0.2) = none ∧
      (Boss.damageRun raidBoss5 [125]).currentPhase = 1 ∧
      ¬ ((Boss.damageRun raidBoss5 [125]).currentPhase = 2) ∧
      (Boss.damageRun raidBoss5 [125, 125]).currentPhase = 2 ∧
      ¬ ((Boss.damageRun raidBoss5 [125, 125]).currentPhase = 3) := by
  have h1 := damageRun_phase_invariant [125] raidBoss5 0 (by norm_num)
    le_rfl (by norm_num)
    (by rw [show raidBoss5.enemy.health = (500 : ℚ) from by decide]; norm_num)
    (by decide) (by decide) (by decide) (by decide) (by decide)
    (by rw [show raidBoss5.currentPhase = 1 from by decide]; norm_num)
  have h2 := damageRun_phase_invariant [125, 125] raidBoss5 0 (by norm_num)
    le_rfl (by norm_num)
    (by rw [show raidBoss5.enemy.health = (500 : ℚ) from by decide]; norm_num)
    (by decide) (by decide) (by decide) (by decide) (by decide)
    (by rw [show raidBoss5.currentPhase = 1 from by decide]; norm_num)
  have e1 : max 1 ⌈3 * ((0 : ℚ) + List.sum [(125 : ℚ)]) / 500⌉ = 1 := by
    norm_num
    rw [Int.ceil_eq_iff]
    norm_num
  have e2 : max 1 ⌈3 * ((0 : ℚ) + List.sum [(125 : ℚ), 125]) / 500⌉ = 2 := by
    norm_num
    rw [Int.ceil_eq_iff]
    norm_num
  rw [e1] at h1
  rw [e2] at h2
  refine ⟨rfl, h1, by rw [h1]; norm_num, h2, by rw [h2]; norm_num⟩

/-- Witness for the amended C1 at wave 5 and a single 200-damage hit
(cumulative damage in `(500/3, 1000/3]`, so phase 2). -/
theorem bossWave_spawn_and_phase_witness :
    ((Level.generateWaveConfig 5 (fun _ => 0)).bossWave = true ∧
      (Level.generateWaveConfig 5 (fun _ => 0)).enemies =
        [⟨if 5 ≤ 10 then .raidTeam else .megaCorpTitan, 1, 2000,
            1 + ((5 : ℚ) - 5) * 0.2⟩,
         ⟨.scriptKiddie, 5 + 5, 500, 1⟩] ∧
      (Level.generateWaveConfig 5 (fun _ => 0)).bossCount = 1) ∧
    (Level.spawnEnemy demoPath 0 .raidTeam 1 = none ∧
      Level.spawnEnemy demoPath 0 .megaCorpTitan 1 = none) ∧
    ((raidBoss5.damageRun [200]).currentPhase =
        max 1 ⌈3 * List.sum [(200 : ℚ)] / 500⌉ ∧
      ((raidBoss5.damageRun [200]).currentPhase = 2 ↔
        500 / 3 < List.sum [(200 : ℚ)] ∧ List.sum [(200 : ℚ)] ≤ 1000 / 3) ∧
      ((raidBoss5.damageRun [200]).currentPhase = 3 ↔
        1000 / 3 < List.sum [(200 : ℚ)])) :=
  ⟨bossWave_spawn_and_phase.1 5 (fun _ => 0) (by norm_num),
   bossWave_spawn_and_phase.2.1 demoPath 0 1,
   bossWave_spawn_and_phase.2.2.2 [200] (by norm_num) (by norm_num)⟩

/-- Case analysis of one `hit()` call on a piercing, non-splash projectile
(the only piercing kind the program creates is the encryption projectile,
which has `splash = false`): either nothing happens (no / dead / already
pierced target — no damage event, pierced set unchanged), or the target
takes one damage event and is recorded in `piercedTargets`. -/
theorem hit_cases (p : Projectile) (w : List Enemy) (ds : List Defense)
    (hp : p.piercing = true) (hs : p.splash = false) :
    ((p.hit w ds).1.piercing = true ∧ (p.hit w ds).1.splash = false) ∧
      (((p.hit w ds).2.2.2 = [] ∧
          (p.hit w ds).1.piercedTargets = p.piercedTargets) ∨
        ∃ tid, p.target = some tid ∧ tid ∉ p.piercedTargets ∧
          (p.hit w ds).2.2.2 = [(tid, p.damage)] ∧
          (p.hit w ds).1.piercedTargets = tid :: p.piercedTargets) := by
  unfold Projectile.hit
  split
  · simp [hp, hs]
  · rename_i tid htarget
    split
    · simp [hp, hs]
    · rename_i t hfind
      split
      · simp [hp, hs]
      · split
        · simp [hp, hs]
        · rename_i hdead hguard
          have hmem : tid ∉ p.piercedTargets := fun hin => hguard ⟨hp, hin⟩
          simp [hp, hs, htarget, hmem]

/-- C3 helper: `hit()` events of a piercing, non-splash projectile target a
given enemy at most once across any operation sequence; once the enemy is in
`piercedTargets` it is never damaged again. -/
theorem runOps_pierce_once (ops : List ProjOp) :
    ∀ (p : Projectile) (w : List Enemy) (ds : List Defense),
      p.piercing = true → p.splash = false → ∀ i : ℕ,
      ((runOps p w ds ops).2.2.2.filter (fun ev => ev.1 == i)).length ≤ 1 ∧
        (i ∈ p.piercedTargets →
          ((runOps p w ds ops).2.2.2.filter
            (fun ev => ev.1 == i)).length = 0) := by
  induction ops with
  | nil => intro p w ds hp hs i; simp [runOps]
  | cons op ops ih =>
      intro p w ds hp hs i
      cases op with
      | retarget t =>
          simpa [runOps] using ih { p with target := t } w ds hp hs i
      | hitCall =>
          obtain ⟨⟨hp', hs'⟩, hcase⟩ := hit_cases p w ds hp hs
          have ihnext := ih (p.hit w ds).1 (p.hit w ds).2.1
            (p.hit w ds).2.2.1 hp' hs' i
          have hevents : (runOps p w ds (.hitCall :: ops)).2.2.2 =
              (p.hit w ds).2.2.2 ++
                (runOps (p.hit w ds).1 (p.hit w ds).2.1
                  (p.hit w ds).2.2.1 ops).2.2.2 := by
            simp [runOps]
          rcases hcase with ⟨hevs, hpts⟩ | ⟨tid, htid, hmem, hevs, hpts⟩
          · rw [hevents, hevs, List.nil_append]
            exact ⟨ihnext.1, fun hin => ihnext.2 (by rw [hpts]; exact hin)⟩
          · rw [hevents, hevs]
            by_cases hi : tid = i
            · subst hi
              have hrest : ((runOps (p.hit w ds).1 (p.hit w ds).2.1
                  (p.hit w ds).2.2.1 ops).2.2.2.filter
                    (fun ev => ev.1 == tid)).length = 0 :=
                ihnext.2 (by rw [hpts]; exact List.mem_cons_self tid _)
              constructor
              · simp [List.filter_append, hrest]
              · intro hin
                exact absurd hin hmem
            · constructor
              · simpa [List.filter_append, hi] using ihnext.1
              · intro hin
                have : i ∈ (p.hit w ds).1.piercedTargets := by
                  rw [hpts]; exact List.mem_cons_of_mem tid hin
                simpa [List.filter_append, hi] using ihnext.2 this

/-- C3 helper: a non-piercing projectile that applies any damage in a
`hit()` call ends that call inactive. -/
theorem hit_nonpiercing_deactivates (p : Projectile) (w : List Enemy)
    (ds : List Defense) (hp : p.piercing = false)
    (hne : (p.hit w ds).2.2.2 ≠ []) :
    (p.hit w ds).1.isActive = false := by
  revert hne
  unfold Projectile.hit
  split
  · intro hne; exact absurd rfl hne
  · split
    · intro hne; exact absurd rfl hne
    · split
      · intro hne; exact absurd rfl hne
      · split
        · intro hne; exact absurd rfl hne
        · intro hne
          simp [hp]

/-- C3 helper: the direct-damage path in `Game.checkProjectileCollisions`
never fires, because every enemy's `radius` is the absent property and the
`NaN` comparison in `circleCollision` is false. -/
theorem checkProjectileCollisions_noop (p : Projectile) (es : List Enemy)
    (ds : List Defense) (h : ∀ e ∈ es, e.radius = none) :
    Game.checkProjectileCollisions p es ds = (p, es, ds, []) := by
  have hfind : es.find? (fun e =>
      Utils.circleCollision p.x p.y (some p.radius) e.x e.y e.radius) =
        none := by
    rw [List.find?_eq_none]
    intro e he
    rw [h e he]
    simp [Utils.circleCollision]
  simp [Game.checkProjectileCollisions, hfind]

/-- C3 helper: `Projectile.checkCollisions` likewise never reaches `hit()`:
the target's absent `radius` makes the collision comparison false. -/
theorem checkCollisions_no_damage (p : Projectile) (es : List Enemy)
    (ds : List Defense) (h : ∀ e ∈ es, e.radius = none) :
    (Projectile.checkCollisions p es ds).2.1 = es ∧
      (Projectile.checkCollisions p es ds).2.2.1 = ds ∧
      (Projectile.checkCollisions p es ds).2.2.2 = [] := by
  unfold Projectile.checkCollisions
  split
  · exact ⟨rfl, rfl, rfl⟩
  · rename_i t hb
    have ht : t ∈ es := by
      rcases hb2 : p.target with _ | tid
      · rw [hb2] at hb; simp at hb
      · rw [hb2] at hb
        rw [Option.some_bind] at hb
        exact List.mem_of_find?_eq_some hb
    split
    · exact ⟨rfl, rfl, rfl⟩
    · split
      · exact ⟨rfl, rfl, rfl⟩
      · rename_i r hrad
        rw [h t ht] at hrad
        exact absurd hrad (by simp)

/-- C3 helper: `updateVelocity` only changes the velocity components, so the
`piercing` and `splash` flags survive construction. -/
theorem updateVelocity_keeps_flags (p : Projectile) (es : List Enemy) :
    (p.updateVelocity es).piercing = p.piercing ∧
      (p.updateVelocity es).splash = p.splash := by
  unfold Projectile.updateVelocity
  split
  · exact ⟨rfl, rfl⟩
  · split
    · exact ⟨rfl, rfl⟩
    · dsimp only
      split
      · exact ⟨rfl, rfl⟩
      · exact ⟨rfl, rfl⟩

/-- An encryption projectile in flight, exactly as the program builds it
(piercing, no splash), sitting on its target. -/
def demoEncShot : Projectile :=
  ⟨60, 60, some 7, 20, 4, .encryption, 0, 0, 3, true, true, false, false,
    0, []⟩

/-- A firewall projectile in flight (non-piercing), sitting on its target. -/
def demoBasicShot : Projectile :=
  ⟨60, 60, some 7, 10, 5, .firewall, 0, 0, 4, true, false, false, false,
    0, []⟩

/-- C3: (1) every projectile the program constructs that is piercing has no
splash component (only the encryption kind sets `piercing`, and the only
projectile buff ever applied, `encrypted`, changes nothing), so the damage
events of a `hit()` are exactly the direct hits; (2) across any lifetime of
retargets and `hit()` calls, a piercing projectile damages each enemy
identity at most once, via the `piercedTargets` guard; (3) a non-piercing
projectile that applies any damage in a `hit()` ends that call inactive;
(4) the two collision-detection entry points (`Game.checkProjectileCollisions`
and `Projectile.checkCollisions`) apply no damage at all on enemies as the
program creates them (no `radius` property, so the `NaN` comparison is
false) — `hit()` only ever runs from `Defense.fire`, once per projectile
creation, which is consistent with the invariant. -/
theorem piercing_hits_once :
    (∀ (x y : ℚ) (tgt : Option ℕ) (dmg spd : ℚ) (t : DefenseType)
        (es : List Enemy),
      (mkProjectile x y tgt dmg spd t es).piercing = true →
        (mkProjectile x y tgt dmg spd t es).splash = false) ∧
    (∀ (ops : List ProjOp) (p : Projectile) (w : List Enemy)
        (ds : List Defense),
      p.piercing = true → p.splash = false → ∀ i : ℕ,
        ((runOps p w ds ops).2.2.2.filter (fun ev => ev.1 == i)).length ≤ 1) ∧
    (∀ (p : Projectile) (w : List Enemy) (ds : List Defense),
      p.piercing = false → (p.hit w ds).2.2.2 ≠ [] →
        (p.hit w ds).1.isActive = false) ∧
    (∀ (p : Projectile) (es : List Enemy) (ds : List Defense),
      (∀ e ∈ es, e.radius = none) →
        Game.checkProjectileCollisions p es ds = (p, es, ds, []) ∧
          (Projectile.checkCollisions p es ds).2.1 = es ∧
          (Projectile.checkCollisions p es ds).2.2.1 = ds ∧
          (Projectile.checkCollisions p es ds).2.2.2 = []) := by
  refine ⟨?_, ?_, ?_, ?_⟩
  · intro x y tgt dmg spd t es hp
    unfold mkProjectile at hp ⊢
    rw [(updateVelocity_keeps_flags _ es).1] at hp
    rw [(updateVelocity_keeps_flags _ es).2]
    cases t <;> simp_all [Projectile.initializeSpecialProperties]
  · exact fun ops p w ds hp hs i => (runOps_pierce_once ops p w ds hp hs i).1
  · exact fun p w ds => hit_nonpiercing_deactivates p w ds
  · intro p es ds h
    exact ⟨checkProjectileCollisions_noop p es ds h,
      checkCollisions_no_damage p es ds h⟩

/-- Witness for C3 on concrete projectiles: a constructed encryption
projectile is piercing without splash; a two-hit lifetime of a piercing
projectile yields at most one damage event for its target; a non-piercing
projectile that just hit its target is inactive; the collision scans leave
the world untouched. -/
theorem piercing_hits_once_witness :
    (mkProjectile 0 0 none 25 5 .encryption []).splash = false ∧
    ((runOps demoEncShot [demoTargetEnemy] []
        [.hitCall, .hitCall]).2.2.2.filter (fun ev => ev.1 == 7)).length ≤ 1 ∧
    (demoBasicShot.hit [demoTargetEnemy] []).1.isActive = false ∧
    Game.checkProjectileCollisions demoBasicShot [demoTargetEnemy] [] =
      (demoBasicShot, [demoTargetEnemy], [], []) :=
  ⟨piercing_hits_once.1 0 0 none 25 5 .encryption [] rfl,
   piercing_hits_once.2.1 [.hitCall, .hitCall] demoEncShot
     [demoTargetEnemy] [] rfl rfl 7,
   piercing_hits_once.2.2.1 demoBasicShot [demoTargetEnemy] [] rfl
     (by simp [Projectile.hit, demoBasicShot, demoTargetEnemy, mkEnemy,
       Enemy.updateTarget, demoPath]),
   (piercing_hits_once.2.2.2 demoBasicShot [demoTargetEnemy] []
     (fun e he => by
       simp only [List.mem_singleton] at he
       subst he
       rfl)).1⟩

end DharmapalaShield
